import Mathlib

/-!
Verification development for the deployments fetcher of `bosh_exporter`
(`deployments/deployments_fetcher.go`).

The pure facet-mapping functions (`fetchDeploymentErrands`,
`fetchDeploymentInstances`, `fetchDeploymentReleases`,
`fetchDeploymentStemcells`, `fetchDeploymentInfo`) are embedded directly.
A remote facet call on a deployment handle is modelled by the pair
(value, optional error) stored in the `Deployment` record, mirroring Go's
multiple return values.  `fetchDeploymentInfo` additionally returns the
list of facet calls it issued, making the call sequencing explicit.

The concurrent collection engine of `Deployments()` (goroutines, a
capacity-1 buffered error channel, a wait group, a `select` racing the
completion channel against the error channel) is embedded as a small-step
transition relation `Step` over an explicit engine state `EngSt`; all
goroutine interleavings are the finite paths of that relation.
-/

/-- Errand record of the exporter (`Errand{Name}`). -/
structure Errand where
  Name : String := ""
deriving DecidableEq, Repr

/-- Release record of the exporter (`Release{Name, Version}`). -/
structure Release where
  Name : String := ""
  Version : String := ""
deriving DecidableEq, Repr

/-- Stemcell record of the exporter (`Stemcell{Name, Version, OSName}`). -/
structure Stemcell where
  Name : String := ""
  Version : String := ""
  OSName : String := ""
deriving DecidableEq, Repr

/-- CPU record of the exporter; vitals use Sys/User/Wait, processes use Total. -/
structure CPU where
  Sys : String := ""
  User : String := ""
  Wait : String := ""
  Total : String := ""
deriving DecidableEq, Repr

/-- Memory record (string KB / percent, as used for vitals Mem and Swap). -/
structure Mem where
  KB : String := ""
  Percent : String := ""
deriving DecidableEq, Repr

/-- Integer memory record (used for process memory, `MemInt`). -/
structure MemInt where
  KB : Int := 0
  Percent : Int := 0
deriving DecidableEq, Repr

/-- Disk usage record (`Disk{InodePercent, Percent}`). -/
structure Disk where
  InodePercent : String := ""
  Percent : String := ""
deriving DecidableEq, Repr

/-- Vitals record of the exporter.  Field declaration order differs from the
Go struct only because in Lean a field named `Mem` would shadow the type
`Mem` for fields declared after it; all literals use named fields, so the
order is semantically irrelevant. -/
structure Vitals where
  CPU : CPU := {}
  Swap : Mem := {}
  Uptime : Int := 0
  Load : List String := []
  SystemDisk : Disk := {}
  EphemeralDisk : Disk := {}
  PersistentDisk : Disk := {}
  Mem : Mem := {}
deriving DecidableEq, Repr

/-- Process record of the exporter. -/
structure Process where
  Name : String := ""
  Uptime : Int := 0
  Healthy : Bool := false
  CPU : CPU := {}
  Mem : MemInt := {}
deriving DecidableEq, Repr

/-- Instance record of the exporter.  `Index` keeps Go's zero value `""`
when the source index is absent. -/
structure Instance where
  AgentID : String := ""
  Name : String := ""
  ID : String := ""
  Index : String := ""
  Bootstrap : Bool := false
  IPs : List String := []
  AZ : String := ""
  VMType : String := ""
  ResourcePool : String := ""
  ResurrectionPaused : Bool := false
  Healthy : Bool := false
  Vitals : Vitals := {}
  Processes : List Process := []
deriving DecidableEq, Repr

/-- Deployment snapshot of the exporter (`DeploymentInfo`), zero values as
in Go. -/
structure DeploymentInfo where
  Name : String := ""
  Errands : List Errand := []
  Instances : List Instance := []
  Releases : List Release := []
  Stemcells : List Stemcell := []
deriving DecidableEq, Repr

/-- Raw errand as delivered by the director client. -/
structure RawErrand where
  Name : String := ""
deriving DecidableEq, Repr

/-- Raw release as delivered by the director client; `Version` holds the
result of `Version().AsString()` (the version object is external). -/
structure RawRelease where
  Name : String := ""
  Version : String := ""
deriving DecidableEq, Repr

/-- Raw stemcell as delivered by the director client; `Version` as above. -/
structure RawStemcell where
  Name : String := ""
  Version : String := ""
  OSName : String := ""
deriving DecidableEq, Repr

/-- Raw vitals CPU of the director client. -/
structure RawCPU where
  Sys : String := ""
  User : String := ""
  Wait : String := ""
deriving DecidableEq, Repr

/-- Raw vitals memory of the director client. -/
structure RawMemSize where
  KB : String := ""
  Percent : String := ""
deriving DecidableEq, Repr

/-- Raw integer memory of the director client (process memory). -/
structure RawMemInt where
  KB : Int := 0
  Percent : Int := 0
deriving DecidableEq, Repr

/-- Raw uptime of the director client. -/
structure RawUptime where
  Seconds : Int := 0
deriving DecidableEq, Repr

/-- Raw disk usage of the director client; the `SystemDisk()`,
`EphemeralDisk()` and `PersistentDisk()` accessor methods are modelled as
fields of `RawVitals`. -/
structure RawDisk where
  InodePercent : String := ""
  Percent : String := ""
deriving DecidableEq, Repr

/-- Raw process CPU of the director client. -/
structure RawProcCPU where
  Total : String := ""
deriving DecidableEq, Repr

/-- Raw process record of the director client; `isRunning` models the
result of the external `IsRunning()` method. -/
structure RawProcess where
  Name : String := ""
  Uptime : RawUptime := {}
  CPU : RawProcCPU := {}
  Mem : RawMemInt := {}
  isRunning : Bool := false
deriving DecidableEq, Repr

/-- Raw vitals record of the director client. -/
structure RawVitals where
  CPU : RawCPU := {}
  Swap : RawMemSize := {}
  Uptime : RawUptime := {}
  Load : List String := []
  SystemDisk : RawDisk := {}
  EphemeralDisk : RawDisk := {}
  PersistentDisk : RawDisk := {}
  Mem : RawMemSize := {}
deriving DecidableEq, Repr

/-- Raw instance record of the director client; `isRunning` models the
result of the external `IsRunning()` method, `Index` the `*int` index. -/
structure RawInstance where
  AgentID : String := ""
  JobName : String := ""
  ID : String := ""
  Index : Option Int := none
  Bootstrap : Bool := false
  IPs : List String := []
  AZ : String := ""
  VMType : String := ""
  ResourcePool : String := ""
  ResurrectionPaused : Bool := false
  VMID : String := ""
  isRunning : Bool := false
  Vitals : RawVitals := {}
  Processes : List RawProcess := []
deriving DecidableEq, Repr

/-- A deployment handle.  Each facet-listing capability of the handle is a
remote call returning (values, error); the handle is modelled by the
outcome each of those calls would deliver during the collection cycle. -/
structure Deployment where
  Name : String := ""
  Errands : List RawErrand × Option String := ([], none)
  InstanceInfos : List RawInstance × Option String := ([], none)
  Releases : List RawRelease × Option String := ([], none)
  Stemcells : List RawStemcell × Option String := ([], none)
deriving DecidableEq, Repr

/-- The external deployments filter; `GetDeployments` is modelled by the
result it returns for this collection cycle. -/
structure DeploymentsFilter where
  GetDeployments : List Deployment × Option String := ([], none)
deriving DecidableEq, Repr

/-- The fetcher (`Fetcher{deploymentsFilter}`). -/
structure Fetcher where
  deploymentsFilter : DeploymentsFilter := {}
deriving DecidableEq, Repr

/-- `NewFetcher`. -/
def NewFetcher (deploymentsFilter : DeploymentsFilter) : Fetcher :=
  { deploymentsFilter := deploymentsFilter }

/-- The four facets, in the order the per-deployment task issues them. -/
inductive Facet where
  | errands
  | instances
  | releases
  | stemcells
deriving DecidableEq, Repr

/-- `Fetcher.fetchDeploymentErrands`: wraps the errand-listing call,
either wrapping the error with the deployment name or mapping each raw
errand to an `Errand`. -/
def Fetcher.fetchDeploymentErrands (_ : Fetcher) (deployment : Deployment) :
    List Errand × Option String :=
  match deployment.Errands with
  | (_, some err) =>
      ([], some ("Error while reading Errands for deployment `" ++
        deployment.Name ++ "`: " ++ err))
  | (errands, none) =>
      (errands.map fun errand => { Name := errand.Name }, none)

/-- Body of the instance loop of `fetchDeploymentInstances`: the
field-by-field construction of one `Instance` from one raw instance
(everything after the `VMID` guard). -/
def mapDeploymentInstance (inst : RawInstance) : Instance :=
  let deploymentInstance : Instance :=
    { AgentID := inst.AgentID
      Name := inst.JobName
      ID := inst.ID
      Bootstrap := inst.Bootstrap
      IPs := inst.IPs
      AZ := inst.AZ
      VMType := inst.VMType
      ResourcePool := inst.ResourcePool
      ResurrectionPaused := inst.ResurrectionPaused
      Healthy := inst.isRunning
      Vitals :=
        { CPU :=
            { Sys := inst.Vitals.CPU.Sys
              User := inst.Vitals.CPU.User
              Wait := inst.Vitals.CPU.Wait }
          Mem :=
            { KB := inst.Vitals.Mem.KB
              Percent := inst.Vitals.Mem.Percent }
          Swap :=
            { KB := inst.Vitals.Swap.KB
              Percent := inst.Vitals.Swap.Percent }
          Uptime := inst.Vitals.Uptime.Seconds
          Load := inst.Vitals.Load
          SystemDisk :=
            { InodePercent := inst.Vitals.SystemDisk.InodePercent
              Percent := inst.Vitals.SystemDisk.Percent }
          EphemeralDisk :=
            { InodePercent := inst.Vitals.EphemeralDisk.InodePercent
              Percent := inst.Vitals.EphemeralDisk.Percent }
          PersistentDisk :=
            { InodePercent := inst.Vitals.PersistentDisk.InodePercent
              Percent := inst.Vitals.PersistentDisk.Percent } } }
  let deploymentInstance :=
    match inst.Index with
    | some i => { deploymentInstance with Index := toString i }
    | none => deploymentInstance
  { deploymentInstance with
      Processes := inst.Processes.map fun process =>
        { Name := process.Name
          Uptime := process.Uptime.Seconds
          Healthy := process.isRunning
          CPU := { Total := process.CPU.Total }
          Mem := { KB := process.Mem.KB, Percent := process.Mem.Percent } } }

/-- `Fetcher.fetchDeploymentInstances`: wraps the instance-info call;
on success it runs the source loop, which skips instances with empty
`VMID` (`continue`) and appends the mapped instance otherwise. -/
def Fetcher.fetchDeploymentInstances (_ : Fetcher) (deployment : Deployment) :
    List Instance × Option String :=
  match deployment.InstanceInfos with
  | (_, some err) =>
      ([], some ("Error while reading Instances for deployment `" ++
        deployment.Name ++ "`: " ++ err))
  | (instances, none) =>
      (instances.foldl
        (fun deploymentInstances inst =>
          if inst.VMID = "" then deploymentInstances
          else deploymentInstances ++ [mapDeploymentInstance inst]) [],
       none)

/-- `Fetcher.fetchDeploymentReleases`. -/
def Fetcher.fetchDeploymentReleases (_ : Fetcher) (deployment : Deployment) :
    List Release × Option String :=
  match deployment.Releases with
  | (_, some err) =>
      ([], some ("Error while reading Releases for deployment `" ++
        deployment.Name ++ "`: " ++ err))
  | (releases, none) =>
      (releases.map fun release =>
        { Name := release.Name, Version := release.Version }, none)

/-- `Fetcher.fetchDeploymentStemcells`. -/
def Fetcher.fetchDeploymentStemcells (_ : Fetcher) (deployment : Deployment) :
    List Stemcell × Option String :=
  match deployment.Stemcells with
  | (_, some err) =>
      ([], some ("Error while reading Stemcells for deployment `" ++
        deployment.Name ++ "`: " ++ err))
  | (stemcells, none) =>
      (stemcells.map fun stemcell =>
        { Name := stemcell.Name, Version := stemcell.Version,
          OSName := stemcell.OSName }, none)

/-- `Fetcher.fetchDeploymentInfo`: builds the snapshot named after the
handle, then issues the four facet calls in source order, returning early
(with the partially built snapshot, as in Go) at the first error.  The
third component records which facet calls were issued, in order. -/
def Fetcher.fetchDeploymentInfo (f : Fetcher) (deployment : Deployment) :
    DeploymentInfo × Option String × List Facet :=
  let deploymentInfo : DeploymentInfo := { Name := deployment.Name }
  match f.fetchDeploymentErrands deployment with
  | (_, some err) => (deploymentInfo, some err, [Facet.errands])
  | (errands, none) =>
    let deploymentInfo := { deploymentInfo with Errands := errands }
    match f.fetchDeploymentInstances deployment with
    | (_, some err) =>
        (deploymentInfo, some err, [Facet.errands, Facet.instances])
    | (instances, none) =>
      let deploymentInfo := { deploymentInfo with Instances := instances }
      match f.fetchDeploymentReleases deployment with
      | (_, some err) =>
          (deploymentInfo, some err,
           [Facet.errands, Facet.instances, Facet.releases])
      | (releases, none) =>
        let deploymentInfo := { deploymentInfo with Releases := releases }
        match f.fetchDeploymentStemcells deployment with
        | (_, some err) =>
            (deploymentInfo, some err,
             [Facet.errands, Facet.instances, Facet.releases, Facet.stemcells])
        | (stemcells, none) =>
            ({ deploymentInfo with Stemcells := stemcells }, none,
             [Facet.errands, Facet.instances, Facet.releases, Facet.stemcells])

/-- State of one per-deployment goroutine.  The pure computation
`fetchDeploymentInfo` is resolved at spawn time (it is a function of the
handle only); what remains observable is the task's interaction with the
shared state: a successful task appends its snapshot and then calls
`wg.Done()`; a failing task sends its error on the capacity-1 error
channel (blocking while the buffer is full) and then calls `wg.Done()`
(the `defer`red call runs only after the send completes). -/
inductive TaskSt where
  | toAppend (info : DeploymentInfo)
  | toSend (e : String)
  | toDone
  | finished
deriving DecidableEq, Repr

/-- Is the task at the append stage? -/
def TaskSt.isToAppend : TaskSt → Bool
  | .toAppend _ => true
  | _ => false

/-- Is the task at the send stage? -/
def TaskSt.isToSend : TaskSt → Bool
  | .toSend _ => true
  | _ => false

/-- Is the task about to call `wg.Done()`? -/
def TaskSt.isToDone : TaskSt → Bool
  | .toDone => true
  | _ => false

/-- Has the task terminated? -/
def TaskSt.isFinished : TaskSt → Bool
  | .finished => true
  | _ => false

/-- State of one execution of `Deployments()` after the spawning loop:
the per-deployment goroutines, the shared `deploymentsInfo` slice, the
buffer of the capacity-1 `errChannel` (`none` = empty), the wait-group
counter, whether `doneChannel` has been closed by the waiter goroutine,
and the value returned by the `select` (`none` while still waiting).
`sendLog` is a ghost history of the values sent on `errChannel`, in send
order; it does not influence any transition. -/
structure EngSt where
  tasks : List TaskSt
  deploymentsInfo : List DeploymentInfo
  errBuf : Option String
  sendLog : List String
  wgCount : Nat
  doneClosed : Bool
  ret : Option (List DeploymentInfo × Option String)
deriving DecidableEq, Repr

/-- The goroutine spawned for a deployment handle, with its pure
computation resolved: it will either append its completed snapshot or
send the error of its first failing facet call. -/
def taskOf (f : Fetcher) (deployment : Deployment) : TaskSt :=
  match f.fetchDeploymentInfo deployment with
  | (_, some err, _) => TaskSt.toSend err
  | (info, none, _) => TaskSt.toAppend info

/-- Engine state right after the spawning loop and the spawn of the
waiter goroutine: one task per handle, empty shared slice, empty error
buffer, wait-group counter at the handle count, `doneChannel` open, the
`select` still waiting. -/
def initState (f : Fetcher) (deployments : List Deployment) : EngSt :=
  { tasks := deployments.map (taskOf f)
    deploymentsInfo := []
    errBuf := none
    sendLog := []
    wgCount := deployments.length
    doneClosed := false
    ret := none }

/-- Small-step transition relation over engine states; each constructor
is one atomic action of one goroutine.  `append` is the mutex-guarded
append of a completed snapshot; `send` is a send on the capacity-1
`errChannel`, enabled only while the buffer is empty (a sender on a full
buffered channel blocks); `wgDone` is the deferred `wg.Done()`; `close`
is the waiter goroutine closing `doneChannel` once the wait-group counter
reaches zero; `mainDone` and `mainErr` are the two branches of the
`select`, each enabled while `Deployments()` has not yet returned —
when both channels are ready Go chooses either branch, hence both
transitions remain enabled. -/
inductive Step : EngSt → EngSt → Prop where
  | append (s : EngSt) (p q : List TaskSt) (v : DeploymentInfo)
      (htasks : s.tasks = p ++ TaskSt.toAppend v :: q) :
      Step s { s with tasks := p ++ TaskSt.toDone :: q,
                      deploymentsInfo := s.deploymentsInfo ++ [v] }
  | send (s : EngSt) (p q : List TaskSt) (e : String)
      (htasks : s.tasks = p ++ TaskSt.toSend e :: q)
      (hbuf : s.errBuf = none) :
      Step s { s with tasks := p ++ TaskSt.toDone :: q,
                      errBuf := some e,
                      sendLog := s.sendLog ++ [e] }
  | wgDone (s : EngSt) (p q : List TaskSt)
      (htasks : s.tasks = p ++ TaskSt.toDone :: q) :
      Step s { s with tasks := p ++ TaskSt.finished :: q,
                      wgCount := s.wgCount - 1 }
  | close (s : EngSt)
      (hwg : s.wgCount = 0) (hdone : s.doneClosed = false) :
      Step s { s with doneClosed := true }
  | mainDone (s : EngSt)
      (hret : s.ret = none) (hdone : s.doneClosed = true) :
      Step s { s with ret := some (s.deploymentsInfo, none) }
  | mainErr (s : EngSt) (e : String)
      (hret : s.ret = none) (hbuf : s.errBuf = some e) :
      Step s { s with ret := some (s.deploymentsInfo, some e),
                      errBuf := none }

/-- Reachability: finitely many interleaved atomic actions. -/
def Reach (a b : EngSt) : Prop :=
  Relation.ReflTransGen Step a b

/-- A state with no enabled action (the execution can make no further
progress; any non-`finished` task in such a state is blocked forever). -/
def Terminal (s : EngSt) : Prop :=
  ∀ t, ¬ Step s t

/-- Outcome of `Deployments()`: either the early return on a filter
error (before any goroutine is spawned), or the engine started in its
initial state. -/
inductive DeploymentsOutcome where
  | immediate (deploymentsInfo : List DeploymentInfo) (err : Option String)
  | engine (s0 : EngSt)
deriving DecidableEq, Repr

/-- `Fetcher.Deployments`: on a filter error, return the empty snapshot
slice and that error immediately; otherwise run the collection engine on
the filtered deployments. -/
def Fetcher.Deployments (f : Fetcher) : DeploymentsOutcome :=
  match f.deploymentsFilter.GetDeployments with
  | (_, some err) => DeploymentsOutcome.immediate [] (some err)
  | (deployments, none) => DeploymentsOutcome.engine (initState f deployments)

/-- Remaining atomic actions of one task. -/
def taskWeight : TaskSt → Nat
  | .toAppend _ => 2
  | .toSend _ => 2
  | .toDone => 1
  | .finished => 0

/-- Remaining atomic actions of the whole engine: a strictly decreasing
measure along `Step`. -/
def engMeasure (s : EngSt) : Nat :=
  (s.tasks.map taskWeight).sum + (if s.doneClosed then 0 else 1) +
    (if s.ret.isSome then 0 else 1)

/-- Invariant of the engine when every per-deployment computation
succeeds: the error channel stays empty, no task ever sends, counters
tie the wait group and the shared slice to the task list, and any
returned value is the full collection with no error. -/
def allOkInv (n : Nat) (s : EngSt) : Prop :=
  s.errBuf = none ∧
  (∀ e, TaskSt.toSend e ∉ s.tasks) ∧
  s.tasks.length = n ∧
  s.wgCount = s.tasks.countP (fun t => !t.isFinished) ∧
  s.deploymentsInfo.length + s.tasks.countP TaskSt.isToAppend = n ∧
  (s.doneClosed = true → s.wgCount = 0) ∧
  (∀ r e, s.ret = some (r, e) → e = none ∧ r.length = n)

/-- Ghost invariant on the error channel: while the select is waiting,
either nothing was ever sent and the buffer is empty, or the buffer
holds the unique value sent so far; once the select returned an error,
that error is the first value ever sent on the channel. -/
def firstErrInv (s : EngSt) : Prop :=
  (s.ret = none →
    (s.errBuf = none ∧ s.sendLog = []) ∨
    (∃ e, s.errBuf = some e ∧ s.sendLog = [e])) ∧
  (∀ r e, s.ret = some (r, some e) → s.sendLog.head? = some e)

/-- Invariant used for the single-failing-deployment analysis: if every
value a task may send equals `m`, then any error the engine can return
equals `m`. -/
def onlyErrInv (m : String) (s : EngSt) : Prop :=
  (∀ e, TaskSt.toSend e ∈ s.tasks → e = m) ∧
  (∀ e, s.errBuf = some e → e = m) ∧
  (∀ r e, s.ret = some (r, some e) → e = m)

/-- Invariant tying every snapshot in the shared slice (and in any
returned collection) to a fully successful per-deployment computation on
one of the input handles. -/
def fullSnapshotInv (f : Fetcher) (deployments : List Deployment)
    (s : EngSt) : Prop :=
  (∀ v, TaskSt.toAppend v ∈ s.tasks →
    ∃ d ∈ deployments, f.fetchDeploymentInfo d =
      (v, none,
       [Facet.errands, Facet.instances, Facet.releases, Facet.stemcells])) ∧
  (∀ v ∈ s.deploymentsInfo,
    ∃ d ∈ deployments, f.fetchDeploymentInfo d =
      (v, none,
       [Facet.errands, Facet.instances, Facet.releases, Facet.stemcells])) ∧
  (∀ r e, s.ret = some (r, e) → ∀ v ∈ r,
    ∃ d ∈ deployments, f.fetchDeploymentInfo d =
      (v, none,
       [Facet.errands, Facet.instances, Facet.releases, Facet.stemcells]))

/-- Invariant of the engine when the handle set is empty. -/
def emptyInv (s : EngSt) : Prop :=
  s.tasks = [] ∧ s.deploymentsInfo = [] ∧ s.errBuf = none ∧
  (∀ r e, s.ret = some (r, e) → r = [] ∧ e = none)

/-- A fetcher used for engine-level executions (the facet functions do
not read the fetcher). -/
def f0 : Fetcher := {}

/-- A deployment whose four facet calls all succeed. -/
def depOk : Deployment :=
  { Name := "cf"
    Errands := ([{ Name := "smoke-tests" }], none)
    InstanceInfos :=
      ([{ JobName := "router", ID := "i-1", VMID := "vm-1", Index := some 3, isRunning := true }],
       none)
    Releases := ([{ Name := "cf", Version := "222" }], none)
    Stemcells :=
      ([{ Name := "bosh-aws", Version := "3263.8", OSName := "ubuntu-trusty" }], none) }

/-- Deployment `d1`, whose errand call fails. -/
def depErrandsFail : Deployment :=
  { Name := "d1", Errands := ([], some "connection refused") }

/-- The wrapped error of `depErrandsFail`. -/
def msgE : String :=
  "Error while reading Errands for deployment `d1`: connection refused"

/-- Deployment `d2`, whose instance call fails; its other facet calls
succeed. -/
def depInstancesFail : Deployment :=
  { Name := "d2", InstanceInfos := ([], some "io timeout") }

/-- The wrapped error of `depInstancesFail`. -/
def msgInst : String :=
  "Error while reading Instances for deployment `d2`: io timeout"

/-- Three deployments whose errand calls all fail. -/
def depA : Deployment := { Name := "a", Errands := ([], some "x1") }

/-- Second failing deployment. -/
def depB : Deployment := { Name := "b", Errands := ([], some "x2") }

/-- Third failing deployment. -/
def depC : Deployment := { Name := "c", Errands := ([], some "x3") }

/-- Wrapped error of `depA`. -/
def msgA : String := "Error while reading Errands for deployment `a`: x1"

/-- Wrapped error of `depB`. -/
def msgB : String := "Error while reading Errands for deployment `b`: x2"

/-- Wrapped error of `depC`. -/
def msgC : String := "Error while reading Errands for deployment `c`: x3"

/-- Execution with three failing tasks, after: task 1 sent `msgA` and
finished; the select returned `([], msgA)`; task 2 sent `msgB` (absorbed
into the now-free buffer, never read again) and finished.  Task 3 is
blocked forever on its send: the buffer is full and no receiver remains. -/
def sLeak : EngSt :=
  { tasks := [TaskSt.finished, TaskSt.finished, TaskSt.toSend msgC]
    deploymentsInfo := []
    errBuf := some msgB
    sendLog := [msgA, msgB]
    wgCount := 1
    doneClosed := false
    ret := some ([], some msgA) }

/-- Intermediate states of the leaking execution. -/
def c2s1 : EngSt :=
  { tasks := [TaskSt.toDone, TaskSt.toSend msgB, TaskSt.toSend msgC]
    deploymentsInfo := []
    errBuf := some msgA
    sendLog := [msgA]
    wgCount := 3
    doneClosed := false
    ret := none }

/-- Second intermediate state of the leaking execution. -/
def c2s2 : EngSt :=
  { tasks := [TaskSt.finished, TaskSt.toSend msgB, TaskSt.toSend msgC]
    deploymentsInfo := []
    errBuf := some msgA
    sendLog := [msgA]
    wgCount := 2
    doneClosed := false
    ret := none }

/-- Third intermediate state of the leaking execution. -/
def c2s3 : EngSt :=
  { tasks := [TaskSt.finished, TaskSt.toSend msgB, TaskSt.toSend msgC]
    deploymentsInfo := []
    errBuf := none
    sendLog := [msgA]
    wgCount := 2
    doneClosed := false
    ret := some ([], some msgA) }

/-- Fourth intermediate state of the leaking execution. -/
def c2s4 : EngSt :=
  { tasks := [TaskSt.finished, TaskSt.toDone, TaskSt.toSend msgC]
    deploymentsInfo := []
    errBuf := some msgB
    sendLog := [msgA, msgB]
    wgCount := 2
    doneClosed := false
    ret := some ([], some msgA) }

/-- Complete execution of one failing deployment (`depErrandsFail`) in
which the completion branch of the select is chosen although the error
buffer is full: the engine returns no error. -/
def c3Nil : EngSt :=
  { tasks := [TaskSt.finished]
    deploymentsInfo := []
    errBuf := some msgE
    sendLog := [msgE]
    wgCount := 0
    doneClosed := true
    ret := some ([], none) }

/-- Intermediate states of the nil-error execution for `depErrandsFail`. -/
def c3s1 : EngSt :=
  { tasks := [TaskSt.toDone]
    deploymentsInfo := []
    errBuf := some msgE
    sendLog := [msgE]
    wgCount := 1
    doneClosed := false
    ret := none }

/-- Second intermediate state of the nil-error execution. -/
def c3s2 : EngSt :=
  { tasks := [TaskSt.finished]
    deploymentsInfo := []
    errBuf := some msgE
    sendLog := [msgE]
    wgCount := 0
    doneClosed := false
    ret := none }

/-- Third intermediate state of the nil-error execution. -/
def c3s3 : EngSt :=
  { tasks := [TaskSt.finished]
    deploymentsInfo := []
    errBuf := some msgE
    sendLog := [msgE]
    wgCount := 0
    doneClosed := true
    ret := none }

/-- Complete execution of one instance-failing deployment
(`depInstancesFail`) returning no error although the task failed. -/
def c6Nil : EngSt :=
  { tasks := [TaskSt.finished]
    deploymentsInfo := []
    errBuf := some msgInst
    sendLog := [msgInst]
    wgCount := 0
    doneClosed := true
    ret := some ([], none) }

/-- Intermediate states of the nil-error execution for
`depInstancesFail`. -/
def c6s1 : EngSt :=
  { tasks := [TaskSt.toDone]
    deploymentsInfo := []
    errBuf := some msgInst
    sendLog := [msgInst]
    wgCount := 1
    doneClosed := false
    ret := none }

/-- Second intermediate state. -/
def c6s2 : EngSt :=
  { tasks := [TaskSt.finished]
    deploymentsInfo := []
    errBuf := some msgInst
    sendLog := [msgInst]
    wgCount := 0
    doneClosed := false
    ret := none }

/-- Third intermediate state. -/
def c6s3 : EngSt :=
  { tasks := [TaskSt.finished]
    deploymentsInfo := []
    errBuf := some msgInst
    sendLog := [msgInst]
    wgCount := 0
    doneClosed := true
    ret := none }

/-- Fetcher whose filter fails. -/
def fFilterFail : Fetcher :=
  { deploymentsFilter := { GetDeployments := ([depOk], some "director down") } }

/-- Fetcher whose filter returns the empty handle set. -/
def fEmpty : Fetcher :=
  { deploymentsFilter := { GetDeployments := ([], none) } }

/-- Fetcher whose filter returns the single all-success deployment. -/
def fOk : Fetcher :=
  { deploymentsFilter := { GetDeployments := ([depOk], none) } }

/-- Deployment with one placeholder instance (empty `VMID`) and one real
instance. -/
def depMix : Deployment :=
  { Name := "mix"
    InstanceInfos :=
      ([{ JobName := "ghost", VMID := "" },
        { JobName := "web", ID := "i-2", VMID := "vm-2", Index := some 0, isRunning := true }],
       none) }

/-- Intermediate state of the empty-handle-set execution. -/
def c8Mid : EngSt :=
  { tasks := [], deploymentsInfo := [], errBuf := none, sendLog := [],
    wgCount := 0, doneClosed := true, ret := none }

/-- Final state of the empty-handle-set execution. -/
def c8Fin : EngSt :=
  { tasks := [], deploymentsInfo := [], errBuf := none, sendLog := [],
    wgCount := 0, doneClosed := true, ret := some ([], none) }

/-- Single-failing-task execution, after the send. -/
def c3n1 (e : String) : EngSt :=
  { tasks := [TaskSt.toDone], deploymentsInfo := [], errBuf := some e,
    sendLog := [e], wgCount := 1, doneClosed := false, ret := none }

/-- After the failing task's deferred `wg.Done()`. -/
def c3n2 (e : String) : EngSt :=
  { tasks := [TaskSt.finished], deploymentsInfo := [], errBuf := some e,
    sendLog := [e], wgCount := 0, doneClosed := false, ret := none }

/-- After the waiter goroutine closes the completion channel. -/
def c3n3 (e : String) : EngSt :=
  { tasks := [TaskSt.finished], deploymentsInfo := [], errBuf := some e,
    sendLog := [e], wgCount := 0, doneClosed := true, ret := none }

/-- Nil-error outcome: the select chose the completion branch although
the error buffer was full. -/
def c3n4 (e : String) : EngSt :=
  { tasks := [TaskSt.finished], deploymentsInfo := [], errBuf := some e,
    sendLog := [e], wgCount := 0, doneClosed := true, ret := some ([], none) }

/-- Error outcome: the select chose the error branch. -/
def c3e2 (e : String) : EngSt :=
  { tasks := [TaskSt.toDone], deploymentsInfo := [], errBuf := none,
    sendLog := [e], wgCount := 1, doneClosed := false,
    ret := some ([], some e) }

/-- Error outcome, after the deferred `wg.Done()`. -/
def c3e3 (e : String) : EngSt :=
  { tasks := [TaskSt.finished], deploymentsInfo := [], errBuf := none,
    sendLog := [e], wgCount := 0, doneClosed := false,
    ret := some ([], some e) }

/-- Error outcome, complete. -/
def c3e4 (e : String) : EngSt :=
  { tasks := [TaskSt.finished], deploymentsInfo := [], errBuf := none,
    sendLog := [e], wgCount := 0, doneClosed := true,
    ret := some ([], some e) }

/-- Invariant rule for reachability: a property holding initially and
preserved by every step holds at every reachable state. -/
theorem reach_invariant {I : EngSt → Prop} {a b : EngSt}
    (h : Reach a b) (h0 : I a)
    (hstep : ∀ s t, I s → Step s t → I t) : I b := by
  induction h with
  | refl => exact h0
  | tail _ hbc ih => exact hstep _ _ ih hbc

/-- Inversion: any enabled step falls into one of six enabling
conditions on the pre-state. -/
theorem step_enabling {s t : EngSt} (h : Step s t) :
    (∃ p v q, s.tasks = p ++ TaskSt.toAppend v :: q) ∨
    (s.errBuf = none ∧ ∃ p e q, s.tasks = p ++ TaskSt.toSend e :: q) ∨
    (∃ p q, s.tasks = p ++ TaskSt.toDone :: q) ∨
    (s.wgCount = 0 ∧ s.doneClosed = false) ∨
    (s.ret = none ∧ s.doneClosed = true) ∨
    (s.ret = none ∧ ∃ e, s.errBuf = some e) := by
  cases h with
  | append p q v htasks => exact Or.inl ⟨p, v, q, htasks⟩
  | send p q e htasks hbuf => exact Or.inr (Or.inl ⟨hbuf, p, e, q, htasks⟩)
  | wgDone p q htasks => exact Or.inr (Or.inr (Or.inl ⟨p, q, htasks⟩))
  | close hwg hdone => exact Or.inr (Or.inr (Or.inr (Or.inl ⟨hwg, hdone⟩)))
  | mainDone hret hdone =>
      exact Or.inr (Or.inr (Or.inr (Or.inr (Or.inl ⟨hret, hdone⟩))))
  | mainErr e hret hbuf =>
      exact Or.inr (Or.inr (Or.inr (Or.inr (Or.inr ⟨hret, e, hbuf⟩))))

/-- A list equal to a decomposition around an element contains it. -/
theorem mem_of_eq_append_cons {α : Type} {l p q : List α} {x : α}
    (h : l = p ++ x :: q) : x ∈ l := by
  subst h; simp

/-- A successful per-deployment computation yields an appending task. -/
theorem taskOf_ok {f : Fetcher} {d : Deployment}
    (h : (f.fetchDeploymentInfo d).2.1 = none) :
    taskOf f d = TaskSt.toAppend (f.fetchDeploymentInfo d).1 := by
  unfold taskOf
  rcases hfd : f.fetchDeploymentInfo d with ⟨info, oerr, tr⟩
  rw [hfd] at h
  simp at h
  subst h
  simp

/-- A failing per-deployment computation yields a sending task. -/
theorem taskOf_err {f : Fetcher} {d : Deployment} {e : String}
    (h : (f.fetchDeploymentInfo d).2.1 = some e) :
    taskOf f d = TaskSt.toSend e := by
  unfold taskOf
  rcases hfd : f.fetchDeploymentInfo d with ⟨info, oerr, tr⟩
  rw [hfd] at h
  simp at h
  subst h
  simp

/-- Every step strictly decreases the measure. -/
theorem step_engMeasure {s t : EngSt} (h : Step s t) :
    engMeasure t < engMeasure s := by
  cases h with
  | append p q v htasks =>
      simp [engMeasure, htasks, taskWeight]
  | send p q e htasks hbuf =>
      simp [engMeasure, htasks, taskWeight]
  | wgDone p q htasks =>
      simp [engMeasure, htasks, taskWeight]
  | close hwg hdone =>
      simp [engMeasure, hdone]
  | mainDone hret hdone =>
      simp [engMeasure, hret]
  | mainErr e hret hbuf =>
      simp [engMeasure, hret]

/-- There is no infinite execution of the engine: any infinite sequence
of states linked by `Step` is contradictory. -/
theorem no_infinite_execution (g : ℕ → EngSt)
    (hs : ∀ n, Step (g n) (g (n + 1))) : False := by
  have key : ∀ n, engMeasure (g n) + n ≤ engMeasure (g 0) := by
    intro n
    induction n with
    | zero => omega
    | succ k ih =>
        have := step_engMeasure (hs k)
        omega
  have := key (engMeasure (g 0) + 1)
  omega

/-- Characterization of `fetchDeploymentInfo` when every facet call
succeeds: all four facets are issued in order and the snapshot carries
all four mapped collections. -/
theorem fetchDeploymentInfo_ok (f : Fetcher) (d : Deployment)
    (es : List Errand) (insts : List Instance) (rels : List Release)
    (stems : List Stemcell)
    (h1 : f.fetchDeploymentErrands d = (es, none))
    (h2 : f.fetchDeploymentInstances d = (insts, none))
    (h3 : f.fetchDeploymentReleases d = (rels, none))
    (h4 : f.fetchDeploymentStemcells d = (stems, none)) :
    f.fetchDeploymentInfo d =
      ({ Name := d.Name, Errands := es, Instances := insts,
         Releases := rels, Stemcells := stems }, none,
       [Facet.errands, Facet.instances, Facet.releases, Facet.stemcells]) := by
  unfold Fetcher.fetchDeploymentInfo
  rw [h1, h2, h3, h4]

/-- Characterization of `fetchDeploymentInfo` when the errand call
fails: only the errand facet is issued; the snapshot holds the name
only. -/
theorem fetchDeploymentInfo_errandsFail (f : Fetcher) (d : Deployment)
    (es : List Errand) (e : String)
    (h1 : f.fetchDeploymentErrands d = (es, some e)) :
    f.fetchDeploymentInfo d =
      ({ Name := d.Name }, some e, [Facet.errands]) := by
  unfold Fetcher.fetchDeploymentInfo
  rw [h1]

/-- Characterization of `fetchDeploymentInfo` when the instance call is
the first to fail. -/
theorem fetchDeploymentInfo_instancesFail (f : Fetcher) (d : Deployment)
    (es : List Errand) (insts : List Instance) (e : String)
    (h1 : f.fetchDeploymentErrands d = (es, none))
    (h2 : f.fetchDeploymentInstances d = (insts, some e)) :
    f.fetchDeploymentInfo d =
      ({ Name := d.Name, Errands := es }, some e,
       [Facet.errands, Facet.instances]) := by
  unfold Fetcher.fetchDeploymentInfo
  rw [h1, h2]

/-- Characterization of `fetchDeploymentInfo` when the release call is
the first to fail. -/
theorem fetchDeploymentInfo_releasesFail (f : Fetcher) (d : Deployment)
    (es : List Errand) (insts : List Instance) (rels : List Release)
    (e : String)
    (h1 : f.fetchDeploymentErrands d = (es, none))
    (h2 : f.fetchDeploymentInstances d = (insts, none))
    (h3 : f.fetchDeploymentReleases d = (rels, some e)) :
    f.fetchDeploymentInfo d =
      ({ Name := d.Name, Errands := es, Instances := insts }, some e,
       [Facet.errands, Facet.instances, Facet.releases]) := by
  unfold Fetcher.fetchDeploymentInfo
  rw [h1, h2, h3]

/-- Characterization of `fetchDeploymentInfo` when the stemcell call is
the first to fail. -/
theorem fetchDeploymentInfo_stemcellsFail (f : Fetcher) (d : Deployment)
    (es : List Errand) (insts : List Instance) (rels : List Release)
    (stems : List Stemcell) (e : String)
    (h1 : f.fetchDeploymentErrands d = (es, none))
    (h2 : f.fetchDeploymentInstances d = (insts, none))
    (h3 : f.fetchDeploymentReleases d = (rels, none))
    (h4 : f.fetchDeploymentStemcells d = (stems, some e)) :
    f.fetchDeploymentInfo d =
      ({ Name := d.Name, Errands := es, Instances := insts,
         Releases := rels }, some e,
       [Facet.errands, Facet.instances, Facet.releases, Facet.stemcells]) := by
  unfold Fetcher.fetchDeploymentInfo
  rw [h1, h2, h3, h4]

/-- The facet trace of any per-deployment computation extends, by some
remaining calls, to the full ordered facet sequence. -/
theorem fetchDeploymentInfo_trace_ordered (f : Fetcher) (d : Deployment) :
    ∃ rest, (f.fetchDeploymentInfo d).2.2 ++ rest =
      [Facet.errands, Facet.instances, Facet.releases, Facet.stemcells] := by
  unfold Fetcher.fetchDeploymentInfo
  rcases h1 : f.fetchDeploymentErrands d with ⟨es, _ | e1⟩
  · rcases h2 : f.fetchDeploymentInstances d with ⟨insts, _ | e2⟩
    · rcases h3 : f.fetchDeploymentReleases d with ⟨rels, _ | e3⟩
      · rcases h4 : f.fetchDeploymentStemcells d with ⟨stems, _ | e4⟩
        · exact ⟨[], rfl⟩
        · exact ⟨[], rfl⟩
      · exact ⟨[Facet.stemcells], rfl⟩
    · exact ⟨[Facet.releases, Facet.stemcells], rfl⟩
  · exact ⟨[Facet.instances, Facet.releases, Facet.stemcells], rfl⟩

/-- The initial state satisfies the all-success invariant. -/
theorem allOkInv_init (f : Fetcher) (deployments : List Deployment)
    (hok : ∀ d ∈ deployments, (f.fetchDeploymentInfo d).2.1 = none) :
    allOkInv deployments.length (initState f deployments) := by
  have htask : ∀ t ∈ deployments.map (taskOf f), t.isToAppend = true := by
    intro t ht
    rcases List.mem_map.mp ht with ⟨d, hd, rfl⟩
    rw [taskOf_ok (hok d hd)]
    rfl
  refine ⟨rfl, ?_, by simp [initState], ?_, ?_, by simp [initState], ?_⟩
  · intro e hmem
    have := htask _ hmem
    simp [TaskSt.isToAppend] at this
  · show deployments.length = _
    rw [List.countP_eq_length.mpr]
    · simp [initState]
    · intro t ht
      have := htask t ht
      cases t <;> simp_all [TaskSt.isToAppend, TaskSt.isFinished]
  · show 0 + _ = _
    have hts : (initState f deployments).tasks = deployments.map (taskOf f) :=
      rfl
    rw [hts, List.countP_eq_length.mpr htask]
    simp
  · intro r e h
    simp [initState] at h

/-- The all-success invariant is preserved by every step. -/
theorem allOkInv_step (n : Nat) (s t : EngSt)
    (hI : allOkInv n s) (h : Step s t) : allOkInv n t := by
  obtain ⟨hbuf, hnosend, hlen, hwg, hres, hdc, hret⟩ := hI
  cases h with
  | append p q v htasks =>
      rw [htasks] at hnosend hlen hwg hres
      refine ⟨hbuf, ?_, ?_, ?_, ?_, hdc, hret⟩
      · intro e hmem
        simp only [List.mem_append, List.mem_cons] at hmem ⊢
        rcases hmem with h' | h' | h'
        · exact hnosend e (by simp [h'])
        · exact TaskSt.noConfusion h'
        · exact hnosend e (by simp [h'])
      · simpa using hlen
      · simp only [List.countP_append, List.countP_cons] at hwg ⊢
        simpa [TaskSt.isFinished] using hwg
      · simp only [List.countP_append, List.countP_cons,
          List.length_append] at hres ⊢
        simp only [TaskSt.isToAppend] at hres ⊢
        simp at hres ⊢
        omega
  | send p q e htasks hbuf' =>
      exfalso
      exact hnosend e (by rw [htasks]; simp)
  | wgDone p q htasks =>
      rw [htasks] at hnosend hlen hwg hres
      refine ⟨hbuf, ?_, ?_, ?_, ?_, ?_, hret⟩
      · intro e hmem
        simp only [List.mem_append, List.mem_cons] at hmem ⊢
        rcases hmem with h' | h' | h'
        · exact hnosend e (by simp [h'])
        · exact TaskSt.noConfusion h'
        · exact hnosend e (by simp [h'])
      · simpa using hlen
      · simp only [List.countP_append, List.countP_cons] at hwg ⊢
        simp only [TaskSt.isFinished] at hwg ⊢
        simp at hwg ⊢
        omega
      · simp only [List.countP_append, List.countP_cons] at hres ⊢
        simpa [TaskSt.isToAppend] using hres
      · intro hd
        have h0 : s.wgCount = 0 := hdc hd
        show s.wgCount - 1 = 0
        omega
  | close hwg' hdone =>
      exact ⟨hbuf, hnosend, hlen, hwg, hres, fun _ => hwg', hret⟩
  | mainDone hret' hdone =>
      refine ⟨hbuf, hnosend, hlen, hwg, hres, hdc, ?_⟩
      intro r e h
      simp only [Option.some.injEq, Prod.mk.injEq] at h
      obtain ⟨hr, he⟩ := h
      subst hr
      constructor
      · exact he.symm
      · have hz := hdc hdone
        rw [hwg] at hz
        have hall : ∀ x ∈ s.tasks, x.isFinished := by
          intro x hx
          have := List.countP_eq_zero.mp hz x hx
          simpa using this
        have hzapp : s.tasks.countP TaskSt.isToAppend = 0 := by
          apply List.countP_eq_zero.mpr
          intro x hx
          have := hall x hx
          cases x <;> simp_all [TaskSt.isFinished, TaskSt.isToAppend]
        omega
  | mainErr e hret' hbuf' =>
      rw [hbuf] at hbuf'
      exact Option.noConfusion hbuf'

/-- The invariant, sideways: a wgDone-case helper mismatch guard. -/
theorem allOkInv_reach (f : Fetcher) (deployments : List Deployment)
    (hok : ∀ d ∈ deployments, (f.fetchDeploymentInfo d).2.1 = none)
    (s : EngSt) (h : Reach (initState f deployments) s) :
    allOkInv deployments.length s :=
  reach_invariant h (allOkInv_init f deployments hok)
    (allOkInv_step deployments.length)

/-- Progress: in a state satisfying the all-success invariant in which
the select has not yet returned, some step is enabled. -/
theorem allOk_progress (n : Nat) (s : EngSt)
    (hI : allOkInv n s) (hret : s.ret = none) : ∃ t, Step s t := by
  obtain ⟨hbuf, hnosend, hlen, hwg, hres, hdc, hretI⟩ := hI
  by_cases happ : 0 < s.tasks.countP TaskSt.isToAppend
  · rcases List.countP_pos_iff.mp happ with ⟨x, hx, hxapp⟩
    rcases x with v | e | _ | _
    · rcases List.append_of_mem hx with ⟨p, q, hpq⟩
      exact ⟨_, Step.append s p q v hpq⟩
    · simp [TaskSt.isToAppend] at hxapp
    · simp [TaskSt.isToAppend] at hxapp
    · simp [TaskSt.isToAppend] at hxapp
  · by_cases hdone : 0 < s.tasks.countP TaskSt.isToDone
    · rcases List.countP_pos_iff.mp hdone with ⟨x, hx, hxd⟩
      rcases x with v | e | _ | _
      · simp [TaskSt.isToDone] at hxd
      · simp [TaskSt.isToDone] at hxd
      · rcases List.append_of_mem hx with ⟨p, q, hpq⟩
        exact ⟨_, Step.wgDone s p q hpq⟩
      · simp [TaskSt.isToDone] at hxd
    · have hallfin : ∀ x ∈ s.tasks, x.isFinished := by
        intro x hx
        rcases x with v | e | _ | _
        · exact absurd (List.countP_pos_iff.mpr ⟨_, hx, rfl⟩) happ
        · exact absurd hx (by simpa using hnosend e)
        · exact absurd (List.countP_pos_iff.mpr ⟨_, hx, rfl⟩) hdone
        · rfl
      have hz : s.tasks.countP (fun t => !t.isFinished) = 0 := by
        apply List.countP_eq_zero.mpr
        intro x hx
        simp [hallfin x hx]
      rcases hclosed : s.doneClosed with _ | _
      · exact ⟨_, Step.close s (by omega) hclosed⟩
      · exact ⟨_, Step.mainDone s hret hclosed⟩

/-- The ghost invariant holds initially. -/
theorem firstErrInv_init (f : Fetcher) (deployments : List Deployment) :
    firstErrInv (initState f deployments) := by
  constructor
  · intro _
    exact Or.inl ⟨rfl, rfl⟩
  · intro r e h
    simp [initState] at h

/-- The ghost invariant is preserved by every step. -/
theorem firstErrInv_step (s t : EngSt)
    (hI : firstErrInv s) (h : Step s t) : firstErrInv t := by
  obtain ⟨hwait, hdone⟩ := hI
  cases h with
  | append p q v htasks => exact ⟨hwait, hdone⟩
  | send p q e htasks hbuf =>
      constructor
      · intro hret
        rcases hwait hret with ⟨_, hlog⟩ | ⟨e', hbuf', _⟩
        · exact Or.inr ⟨e, rfl, by rw [hlog]; rfl⟩
        · rw [hbuf] at hbuf'
          exact Option.noConfusion hbuf'
      · intro r e' hret
        have h' := hdone r e' hret
        show (s.sendLog ++ [e]).head? = some e'
        rcases hlog : s.sendLog with _ | ⟨a, l⟩
        · rw [hlog] at h'
          simp at h'
        · rw [hlog] at h'
          simpa using h'
  | wgDone p q htasks => exact ⟨hwait, hdone⟩
  | close hwg hdone' => exact ⟨hwait, hdone⟩
  | mainDone hret hdone' =>
      constructor
      · intro h'
        simp at h'
      · intro r e h'
        simp only [Option.some.injEq, Prod.mk.injEq] at h'
        exact absurd h'.2 (by simp)
  | mainErr e hret hbuf =>
      constructor
      · intro h'
        simp at h'
      · intro r e' h'
        simp only [Option.some.injEq, Prod.mk.injEq] at h'
        obtain ⟨_, he⟩ := h'
        rcases hwait hret with ⟨hbuf', _⟩ | ⟨e'', hbuf', hlog⟩
        · rw [hbuf] at hbuf'
          exact Option.noConfusion hbuf'
        · rw [hbuf] at hbuf'
          obtain rfl : e = e'' := Option.some.inj hbuf'
          rw [hlog]
          simp [← he]

/-- The only-error invariant is preserved by every step. -/
theorem onlyErrInv_step (m : String) (s t : EngSt)
    (hI : onlyErrInv m s) (h : Step s t) : onlyErrInv m t := by
  obtain ⟨htask, hbufI, hretI⟩ := hI
  cases h with
  | append p q v htasks =>
      refine ⟨?_, hbufI, hretI⟩
      intro e hmem
      apply htask e
      rw [htasks]
      simp only [List.mem_append, List.mem_cons] at hmem ⊢
      rcases hmem with h' | h' | h'
      · exact Or.inl h'
      · exact TaskSt.noConfusion h'
      · exact Or.inr (Or.inr h')
  | send p q e htasks hbuf =>
      have he : e = m := htask e (by rw [htasks]; simp)
      refine ⟨?_, ?_, hretI⟩
      · intro e' hmem
        apply htask e'
        rw [htasks]
        simp only [List.mem_append, List.mem_cons] at hmem ⊢
        rcases hmem with h' | h' | h'
        · exact Or.inl h'
        · exact TaskSt.noConfusion h'
        · exact Or.inr (Or.inr h')
      · intro e' hbuf'
        have : some e = some e' := hbuf'
        rw [← Option.some.inj this]
        exact he
  | wgDone p q htasks =>
      refine ⟨?_, hbufI, hretI⟩
      intro e hmem
      apply htask e
      rw [htasks]
      simp only [List.mem_append, List.mem_cons] at hmem ⊢
      rcases hmem with h' | h' | h'
      · exact Or.inl h'
      · exact TaskSt.noConfusion h'
      · exact Or.inr (Or.inr h')
  | close hwg hdone => exact ⟨htask, hbufI, hretI⟩
  | mainDone hret hdone =>
      refine ⟨htask, hbufI, ?_⟩
      intro r e h'
      simp only [Option.some.injEq, Prod.mk.injEq] at h'
      exact absurd h'.2 (by simp)
  | mainErr e hret hbuf =>
      refine ⟨htask, ?_, ?_⟩
      · intro e' hbuf'
        exact Option.noConfusion hbuf'
      · intro r e' h'
        simp only [Option.some.injEq, Prod.mk.injEq] at h'
        obtain ⟨_, he'⟩ := h'
        have := hbufI e hbuf
        rw [← he']
        exact this

/-- The full-snapshot invariant holds initially. -/
theorem fullSnapshotInv_init (f : Fetcher) (deployments : List Deployment) :
    fullSnapshotInv f deployments (initState f deployments) := by
  refine ⟨?_, ?_, ?_⟩
  · intro v hmem
    rcases List.mem_map.mp hmem with ⟨d, hd, htask⟩
    refine ⟨d, hd, ?_⟩
    unfold taskOf at htask
    rcases hfd : f.fetchDeploymentInfo d with ⟨info, oerr, tr⟩
    rw [hfd] at htask
    rcases oerr with _ | e
    · simp at htask
      rcases hex : f.fetchDeploymentErrands d with ⟨es, _ | e1⟩
      · rcases hix : f.fetchDeploymentInstances d with ⟨insts, _ | e2⟩
        · rcases hrx : f.fetchDeploymentReleases d with ⟨rels, _ | e3⟩
          · rcases hsx : f.fetchDeploymentStemcells d with ⟨stems, _ | e4⟩
            · have := fetchDeploymentInfo_ok f d es insts rels stems
                hex hix hrx hsx
              rw [hfd] at this
              simp only [Prod.mk.injEq] at this
              rw [htask, this.2.2]
            · have := fetchDeploymentInfo_stemcellsFail f d es insts rels
                stems e4 hex hix hrx hsx
              rw [hfd] at this
              simp at this
          · have := fetchDeploymentInfo_releasesFail f d es insts rels e3
              hex hix hrx
            rw [hfd] at this
            simp at this
        · have := fetchDeploymentInfo_instancesFail f d es insts e2 hex hix
          rw [hfd] at this
          simp at this
      · have := fetchDeploymentInfo_errandsFail f d es e1 hex
        rw [hfd] at this
        simp at this
    · simp at htask
  · intro v hmem
    simp [initState] at hmem
  · intro r e h
    simp [initState] at h

/-- The full-snapshot invariant is preserved by every step. -/
theorem fullSnapshotInv_step (f : Fetcher) (deployments : List Deployment)
    (s t : EngSt) (hI : fullSnapshotInv f deployments s) (h : Step s t) :
    fullSnapshotInv f deployments t := by
  obtain ⟨htask, hres, hretI⟩ := hI
  cases h with
  | append p q v htasks =>
      have hv := htask v (by rw [htasks]; simp)
      refine ⟨?_, ?_, hretI⟩
      · intro v' hmem
        apply htask v'
        rw [htasks]
        simp only [List.mem_append, List.mem_cons] at hmem ⊢
        rcases hmem with h' | h' | h'
        · exact Or.inl h'
        · exact TaskSt.noConfusion h'
        · exact Or.inr (Or.inr h')
      · intro v' hmem
        simp only [List.mem_append, List.mem_singleton] at hmem
        rcases hmem with h' | h'
        · exact hres v' h'
        · rw [h']
          exact hv
  | send p q e htasks hbuf =>
      refine ⟨?_, hres, hretI⟩
      intro v' hmem
      apply htask v'
      rw [htasks]
      simp only [List.mem_append, List.mem_cons] at hmem ⊢
      rcases hmem with h' | h' | h'
      · exact Or.inl h'
      · exact TaskSt.noConfusion h'
      · exact Or.inr (Or.inr h')
  | wgDone p q htasks =>
      refine ⟨?_, hres, hretI⟩
      intro v' hmem
      apply htask v'
      rw [htasks]
      simp only [List.mem_append, List.mem_cons] at hmem ⊢
      rcases hmem with h' | h' | h'
      · exact Or.inl h'
      · exact TaskSt.noConfusion h'
      · exact Or.inr (Or.inr h')
  | close hwg hdone => exact ⟨htask, hres, hretI⟩
  | mainDone hret hdone =>
      refine ⟨htask, hres, ?_⟩
      intro r e h' v hv
      simp only [Option.some.injEq, Prod.mk.injEq] at h'
      obtain ⟨hr, _⟩ := h'
      exact hres v (hr ▸ hv)
  | mainErr e hret hbuf =>
      refine ⟨htask, hres, ?_⟩
      intro r e' h' v hv
      simp only [Option.some.injEq, Prod.mk.injEq] at h'
      obtain ⟨hr, _⟩ := h'
      exact hres v (hr ▸ hv)

/-- String append is associative. -/
theorem string_append_assoc (a b c : String) : a ++ b ++ c = a ++ (b ++ c) := by
  apply String.ext
  simp [String.data_append, List.append_assoc]

/-- `fetchDeploymentErrands` on a successful errand call. -/
theorem fetchDeploymentErrands_ok (f : Fetcher) (d : Deployment)
    (res : List RawErrand) (h : d.Errands = (res, none)) :
    f.fetchDeploymentErrands d =
      (res.map fun errand => { Name := errand.Name }, none) := by
  unfold Fetcher.fetchDeploymentErrands
  rw [h]

/-- `fetchDeploymentErrands` on a failing errand call: empty collection
and an error embedding the deployment name and the cause. -/
theorem fetchDeploymentErrands_err (f : Fetcher) (d : Deployment)
    (res : List RawErrand) (e : String) (h : d.Errands = (res, some e)) :
    f.fetchDeploymentErrands d =
      ([], some ("Error while reading Errands for deployment `" ++
        d.Name ++ "`: " ++ e)) := by
  unfold Fetcher.fetchDeploymentErrands
  rw [h]

/-- The instance loop is a filter on non-empty `VMID` followed by the
per-instance mapping. -/
theorem instances_foldl_eq (l : List RawInstance) (acc : List Instance) :
    l.foldl
      (fun deploymentInstances inst =>
        if inst.VMID = "" then deploymentInstances
        else deploymentInstances ++ [mapDeploymentInstance inst]) acc =
    acc ++ (l.filter fun inst => !(inst.VMID == "")).map
      mapDeploymentInstance := by
  induction l generalizing acc with
  | nil => simp
  | cons a l ih =>
      by_cases h : a.VMID = ""
      · simp [List.foldl_cons, h, ih, List.filter_cons]
      · simp [List.foldl_cons, h, ih, List.filter_cons]

/-- `fetchDeploymentInstances` on a successful instance-info call. -/
theorem fetchDeploymentInstances_ok (f : Fetcher) (d : Deployment)
    (res : List RawInstance) (h : d.InstanceInfos = (res, none)) :
    f.fetchDeploymentInstances d =
      ((res.filter fun inst => !(inst.VMID == "")).map
        mapDeploymentInstance, none) := by
  unfold Fetcher.fetchDeploymentInstances
  rw [h]
  dsimp only
  rw [instances_foldl_eq]
  simp

/-- `fetchDeploymentInstances` on a failing instance-info call: empty
collection and an error embedding the deployment name and the cause. -/
theorem fetchDeploymentInstances_err (f : Fetcher) (d : Deployment)
    (res : List RawInstance) (e : String)
    (h : d.InstanceInfos = (res, some e)) :
    f.fetchDeploymentInstances d =
      ([], some ("Error while reading Instances for deployment `" ++
        d.Name ++ "`: " ++ e)) := by
  unfold Fetcher.fetchDeploymentInstances
  rw [h]

/-- `fetchDeploymentReleases` on a successful release call. -/
theorem fetchDeploymentReleases_ok (f : Fetcher) (d : Deployment)
    (res : List RawRelease) (h : d.Releases = (res, none)) :
    f.fetchDeploymentReleases d =
      (res.map fun release =>
        { Name := release.Name, Version := release.Version }, none) := by
  unfold Fetcher.fetchDeploymentReleases
  rw [h]

/-- `fetchDeploymentStemcells` on a successful stemcell call. -/
theorem fetchDeploymentStemcells_ok (f : Fetcher) (d : Deployment)
    (res : List RawStemcell) (h : d.Stemcells = (res, none)) :
    f.fetchDeploymentStemcells d =
      (res.map fun stemcell =>
        { Name := stemcell.Name, Version := stemcell.Version,
          OSName := stemcell.OSName }, none) := by
  unfold Fetcher.fetchDeploymentStemcells
  rw [h]

/-- The `Index` field of a mapped instance: Go's zero value when the
source index is absent, the decimal rendering otherwise. -/
theorem mapDeploymentInstance_Index (inst : RawInstance) :
    (mapDeploymentInstance inst).Index =
      (match inst.Index with
       | none => ""
       | some i => toString i) := by
  rcases h : inst.Index with _ | i <;>
    simp [mapDeploymentInstance, h]

/-- The empty-input invariant is preserved by every step. -/
theorem emptyInv_step (s t : EngSt)
    (hI : emptyInv s) (h : Step s t) : emptyInv t := by
  obtain ⟨htasks, hres, hbuf, hret⟩ := hI
  cases h with
  | append p q v htasks' =>
      rw [htasks] at htasks'
      exact absurd htasks'.symm (List.append_ne_nil_of_right_ne_nil p
        (List.cons_ne_nil _ _))
  | send p q e htasks' hbuf' =>
      rw [htasks] at htasks'
      exact absurd htasks'.symm (List.append_ne_nil_of_right_ne_nil p
        (List.cons_ne_nil _ _))
  | wgDone p q htasks' =>
      rw [htasks] at htasks'
      exact absurd htasks'.symm (List.append_ne_nil_of_right_ne_nil p
        (List.cons_ne_nil _ _))
  | close hwg hdone => exact ⟨htasks, hres, hbuf, hret⟩
  | mainDone hret' hdone =>
      refine ⟨htasks, hres, hbuf, ?_⟩
      intro r e h'
      simp only [Option.some.injEq, Prod.mk.injEq] at h'
      exact ⟨by rw [← h'.1, hres], h'.2.symm⟩
  | mainErr e hret' hbuf' =>
      rw [hbuf] at hbuf'
      exact Option.noConfusion hbuf'

/-- In the single-failing-instance scenario, the initial state satisfies
the only-error invariant for the wrapped instance error. -/
theorem onlyErrInv_init_instances (f : Fetcher)
    (deployments : List Deployment) (d0 : Deployment) (cause : String)
    (hE : d0.Errands.2 = none)
    (hX : d0.InstanceInfos.2 = some cause)
    (hothers : ∀ d ∈ deployments, d ≠ d0 →
      (f.fetchDeploymentInfo d).2.1 = none) :
    onlyErrInv ("Error while reading Instances for deployment `" ++
      d0.Name ++ "`: " ++ cause) (initState f deployments) := by
  refine ⟨?_, ?_, ?_⟩
  · intro e hmem
    rcases List.mem_map.mp hmem with ⟨d, hd, htask⟩
    by_cases hdd : d = d0
    · subst hdd
      rcases hEx : d.Errands with ⟨res, oe⟩
      rw [hEx] at hE
      simp at hE
      subst hE
      rcases hXx : d.InstanceInfos with ⟨ires, oi⟩
      rw [hXx] at hX
      simp at hX
      subst hX
      have h1 := fetchDeploymentErrands_ok f d res hEx
      have h2 := fetchDeploymentInstances_err f d ires cause hXx
      have hfd := fetchDeploymentInfo_instancesFail f d _ _ _ h1 h2
      rw [taskOf_err (by rw [hfd])] at htask
      exact (TaskSt.toSend.inj htask).symm
    · rw [taskOf_ok (hothers d hd hdd)] at htask
      exact TaskSt.noConfusion htask
  · intro e h
    exact Option.noConfusion h
  · intro r e h
    simp [initState] at h

/-- Claim C5: for every input instance payload, an instance whose VM
identity is the empty value is never present in the sequence returned by
the instance facet function: the returned sequence is exactly the
mapping of the payload entries whose `VMID` is non-empty, and every
returned instance arises from such an entry. -/
theorem C5_empty_vmid_excluded (f : Fetcher) (d : Deployment)
    (res : List RawInstance) (h : d.InstanceInfos = (res, none)) :
    (f.fetchDeploymentInstances d).1 =
      (res.filter fun inst => !(inst.VMID == "")).map mapDeploymentInstance ∧
    ∀ x ∈ (f.fetchDeploymentInstances d).1,
      ∃ inst ∈ res, ¬ inst.VMID = "" ∧ x = mapDeploymentInstance inst := by
  have heq := fetchDeploymentInstances_ok f d res h
  constructor
  · rw [heq]
  · intro x hx
    rw [heq] at hx
    rcases List.mem_map.mp hx with ⟨inst, hinst, rfl⟩
    rcases List.mem_filter.mp hinst with ⟨hmem, hcond⟩
    refine ⟨inst, hmem, ?_, rfl⟩
    simpa using hcond

/-- Witness for C5 at a payload with one placeholder and one real
instance. -/
theorem C5_witness :
    (f0.fetchDeploymentInstances depMix).1 =
      ((depMix.InstanceInfos.1.filter fun inst => !(inst.VMID == "")).map
        mapDeploymentInstance) ∧
    ∀ x ∈ (f0.fetchDeploymentInstances depMix).1,
      ∃ inst ∈ depMix.InstanceInfos.1,
        ¬ inst.VMID = "" ∧ x = mapDeploymentInstance inst :=
  C5_empty_vmid_excluded f0 depMix depMix.InstanceInfos.1 rfl

/-- Claim C7: if the deployments filter fails, `Deployments` returns the
empty collection with that error immediately, and the engine (hence any
per-deployment task) is never started. -/
theorem C7_filter_error_immediate (f : Fetcher) (l : List Deployment)
    (e : String) (h : f.deploymentsFilter.GetDeployments = (l, some e)) :
    Fetcher.Deployments f = DeploymentsOutcome.immediate [] (some e) ∧
    ∀ s0, Fetcher.Deployments f ≠ DeploymentsOutcome.engine s0 := by
  have heq : Fetcher.Deployments f = DeploymentsOutcome.immediate [] (some e) := by
    unfold Fetcher.Deployments
    rw [h]
  refine ⟨heq, fun s0 hne => ?_⟩
  rw [heq] at hne
  exact DeploymentsOutcome.noConfusion hne

/-- Witness for C7 at a concrete failing filter. -/
theorem C7_witness :
    Fetcher.Deployments fFilterFail =
      DeploymentsOutcome.immediate [] (some "director down") ∧
    ∀ s0, Fetcher.Deployments fFilterFail ≠ DeploymentsOutcome.engine s0 :=
  C7_filter_error_immediate fFilterFail [depOk] "director down" rfl

/-- Claim C8: for the empty handle set, the engine starts with no
per-deployment task, every reachable state keeps the collection empty,
any returned value is the empty collection with no error, and a complete
execution reaching that return exists. -/
theorem C8_empty_handles (f : Fetcher)
    (h : f.deploymentsFilter.GetDeployments = ([], none)) :
    Fetcher.Deployments f = DeploymentsOutcome.engine (initState f []) ∧
    (initState f []).tasks = [] ∧
    (∀ s, Reach (initState f []) s →
      s.tasks = [] ∧ s.deploymentsInfo = [] ∧
      ∀ r e, s.ret = some (r, e) → r = [] ∧ e = none) ∧
    ∃ s, Reach (initState f []) s ∧ Terminal s ∧ s.ret = some ([], none) := by
  refine ⟨?_, rfl, ?_, ?_⟩
  · unfold Fetcher.Deployments
    rw [h]
  · intro s hreach
    have hI : emptyInv s := by
      refine reach_invariant hreach ⟨rfl, rfl, rfl, ?_⟩ emptyInv_step
      intro r e h'
      simp [initState] at h'
    exact ⟨hI.1, hI.2.1, hI.2.2.2⟩
  · refine ⟨c8Fin, ?_, ?_, rfl⟩
    · have h1 : Step (initState f []) c8Mid := Step.close (initState f []) rfl rfl
      have h2 : Step c8Mid c8Fin := Step.mainDone c8Mid rfl rfl
      exact Relation.ReflTransGen.head h1
        (Relation.ReflTransGen.head h2 Relation.ReflTransGen.refl)
    · intro t ht
      rcases step_enabling ht with ⟨p, v, q, hd⟩ | ⟨_, p, e, q, hd⟩ |
        ⟨p, q, hd⟩ | ⟨_, hdone⟩ | ⟨hret, _⟩ | ⟨hret, _⟩
      · have := mem_of_eq_append_cons hd
        simp [c8Fin] at this
      · have := mem_of_eq_append_cons hd
        simp [c8Fin] at this
      · have := mem_of_eq_append_cons hd
        simp [c8Fin] at this
      · simp [c8Fin] at hdone
      · simp [c8Fin] at hret
      · simp [c8Fin] at hret

/-- Witness for C8 at a concrete fetcher with an empty filter result. -/
theorem C8_witness :
    Fetcher.Deployments fEmpty = DeploymentsOutcome.engine (initState fEmpty []) ∧
    (initState fEmpty []).tasks = [] ∧
    (∀ s, Reach (initState fEmpty []) s →
      s.tasks = [] ∧ s.deploymentsInfo = [] ∧
      ∀ r e, s.ret = some (r, e) → r = [] ∧ e = none) ∧
    ∃ s, Reach (initState fEmpty []) s ∧ Terminal s ∧ s.ret = some ([], none) :=
  C8_empty_handles fEmpty rfl

/-- Claim C9: a retained instance whose source index is absent gets no
index string (Go's zero value `""`), and a present index is rendered as
its decimal string. -/
theorem C9_index_mapping (inst : RawInstance) :
    (inst.Index = none → (mapDeploymentInstance inst).Index = "") ∧
    ∀ i : Int, inst.Index = some i →
      (mapDeploymentInstance inst).Index = toString i := by
  constructor
  · intro h
    rw [mapDeploymentInstance_Index, h]
  · intro i h
    rw [mapDeploymentInstance_Index, h]

/-- Witness for C9: absent index yields no index string; index 3 yields
the string form. -/
theorem C9_witness :
    (mapDeploymentInstance { JobName := "ghost", VMID := "" }).Index = "" ∧
    (mapDeploymentInstance
      { JobName := "web", VMID := "vm-2", Index := some 3 }).Index = "3" :=
  ⟨(C9_index_mapping { JobName := "ghost", VMID := "" }).1 rfl,
   ((C9_index_mapping
      { JobName := "web", VMID := "vm-2", Index := some 3 }).2 3 rfl).trans rfl⟩

/-- Claim C10: on a successful facet call, the errand, release and
stemcell mappings are length- and order-preserving element-wise maps of
the source records. -/
theorem C10_facet_maps_elementwise (f : Fetcher) (d : Deployment) :
    (∀ res, d.Errands = (res, none) →
      f.fetchDeploymentErrands d =
        (res.map fun errand => { Name := errand.Name }, none) ∧
      (f.fetchDeploymentErrands d).1.length = res.length ∧
      ∀ i : Nat, (f.fetchDeploymentErrands d).1[i]? =
        (res[i]?).map fun errand => ({ Name := errand.Name } : Errand)) ∧
    (∀ res, d.Releases = (res, none) →
      f.fetchDeploymentReleases d =
        (res.map fun release =>
          { Name := release.Name, Version := release.Version }, none) ∧
      (f.fetchDeploymentReleases d).1.length = res.length ∧
      ∀ i : Nat, (f.fetchDeploymentReleases d).1[i]? =
        (res[i]?).map fun release =>
          ({ Name := release.Name, Version := release.Version } : Release)) ∧
    (∀ res, d.Stemcells = (res, none) →
      f.fetchDeploymentStemcells d =
        (res.map fun stemcell =>
          { Name := stemcell.Name, Version := stemcell.Version,
            OSName := stemcell.OSName }, none) ∧
      (f.fetchDeploymentStemcells d).1.length = res.length ∧
      ∀ i : Nat, (f.fetchDeploymentStemcells d).1[i]? =
        (res[i]?).map fun stemcell =>
          ({ Name := stemcell.Name, Version := stemcell.Version,
             OSName := stemcell.OSName } : Stemcell)) := by
  refine ⟨?_, ?_, ?_⟩
  · intro res h
    have heq := fetchDeploymentErrands_ok f d res h
    refine ⟨heq, ?_, ?_⟩
    · rw [heq]
      simp
    · intro i
      rw [heq]
      simp [List.getElem?_map]
  · intro res h
    have heq := fetchDeploymentReleases_ok f d res h
    refine ⟨heq, ?_, ?_⟩
    · rw [heq]
      simp
    · intro i
      rw [heq]
      simp [List.getElem?_map]
  · intro res h
    have heq := fetchDeploymentStemcells_ok f d res h
    refine ⟨heq, ?_, ?_⟩
    · rw [heq]
      simp
    · intro i
      rw [heq]
      simp [List.getElem?_map]

/-- Witness for C10 at the all-success deployment's errand facet. -/
theorem C10_witness :
    f0.fetchDeploymentErrands depOk =
      (([{ Name := "smoke-tests" }] : List RawErrand).map fun errand =>
        { Name := errand.Name }, none) ∧
    (f0.fetchDeploymentErrands depOk).1.length =
      ([{ Name := "smoke-tests" }] : List RawErrand).length ∧
    ∀ i : Nat, (f0.fetchDeploymentErrands depOk).1[i]? =
      (([{ Name := "smoke-tests" }] : List RawErrand)[i]?).map fun errand =>
        ({ Name := errand.Name } : Errand) :=
  (C10_facet_maps_elementwise f0 depOk).1 [{ Name := "smoke-tests" }] rfl

/-- Claim C1: for a non-empty handle set on which every per-deployment
computation succeeds, every complete execution of the engine returns
exactly one snapshot per handle and no error, and no execution runs
forever. -/
theorem C1_all_success_counts (f : Fetcher) (deployments : List Deployment)
    (hfil : f.deploymentsFilter.GetDeployments = (deployments, none))
    (_hne : deployments ≠ [])
    (hok : ∀ d ∈ deployments, (f.fetchDeploymentInfo d).2.1 = none) :
    Fetcher.Deployments f = DeploymentsOutcome.engine (initState f deployments) ∧
    (∀ s, Reach (initState f deployments) s → Terminal s →
      ∃ r, s.ret = some (r, none) ∧ r.length = deployments.length) ∧
    (∀ g : ℕ → EngSt, g 0 = initState f deployments →
      ¬ ∀ n, Step (g n) (g (n + 1))) := by
  refine ⟨?_, ?_, ?_⟩
  · unfold Fetcher.Deployments
    rw [hfil]
  · intro s hreach hterm
    have hI := allOkInv_reach f deployments hok s hreach
    rcases hret : s.ret with _ | ⟨r, e⟩
    · rcases allOk_progress deployments.length s hI hret with ⟨t, ht⟩
      exact absurd ht (hterm t)
    · obtain ⟨he, hlen⟩ := hI.2.2.2.2.2.2 r e hret
      subst he
      exact ⟨r, rfl, hlen⟩
  · intro g _ hsteps
    exact no_infinite_execution g hsteps

/-- Witness for C1 at the single all-success deployment. -/
theorem C1_witness :
    Fetcher.Deployments fOk = DeploymentsOutcome.engine (initState fOk [depOk]) ∧
    (∀ s, Reach (initState fOk [depOk]) s → Terminal s →
      ∃ r, s.ret = some (r, none) ∧ r.length = [depOk].length) ∧
    (∀ g : ℕ → EngSt, g 0 = initState fOk [depOk] →
      ¬ ∀ n, Step (g n) (g (n + 1))) :=
  C1_all_success_counts fOk [depOk] rfl (by decide) (by decide)

/-- Claim C2 (amended): in every execution, at most one error reaches
the caller and it is the first error sent on the error channel; while
the select waits, at most one send has ever completed.  (The original
claim's further assertion that no goroutine is leaked fails once three
or more tasks fail: see the counterexample.) -/
theorem C2_first_error_retained (f : Fetcher) (deployments : List Deployment)
    (s : EngSt) (h : Reach (initState f deployments) s) :
    (∀ r e, s.ret = some (r, some e) → s.sendLog.head? = some e) ∧
    (s.ret = none →
      (s.errBuf = none ∧ s.sendLog = []) ∨
      ∃ e, s.errBuf = some e ∧ s.sendLog = [e]) := by
  have hI : firstErrInv s :=
    reach_invariant h (firstErrInv_init f deployments) firstErrInv_step
  exact ⟨hI.2, hI.1⟩

/-- Witness for C2 at a concrete reachable state of the three-failure
input. -/
theorem C2_witness :
    (∀ r e, c2s1.ret = some (r, some e) → c2s1.sendLog.head? = some e) ∧
    (c2s1.ret = none →
      (c2s1.errBuf = none ∧ c2s1.sendLog = []) ∨
      ∃ e, c2s1.errBuf = some e ∧ c2s1.sendLog = [e]) :=
  C2_first_error_retained f0 [depA, depB, depC] c2s1
    (Relation.ReflTransGen.head
      (Step.send (initState f0 [depA, depB, depC]) []
        [TaskSt.toSend msgB, TaskSt.toSend msgC] msgA rfl rfl)
      Relation.ReflTransGen.refl)

/-- Counterexample to claim C2 as stated: with three failing tasks there
is a complete execution (a reachable state in which no action is
enabled) in which the third task is still blocked on its error send —
a leaked goroutine that never terminates. -/
theorem C2_leak_counterexample :
    Reach (initState f0 [depA, depB, depC]) sLeak ∧ Terminal sLeak ∧
    TaskSt.toSend msgC ∈ sLeak.tasks ∧ sLeak.ret = some ([], some msgA) := by
  refine ⟨?_, ?_, by simp [sLeak], rfl⟩
  · have h1 : Step (initState f0 [depA, depB, depC]) c2s1 :=
      Step.send (initState f0 [depA, depB, depC]) []
        [TaskSt.toSend msgB, TaskSt.toSend msgC] msgA rfl rfl
    have h2 : Step c2s1 c2s2 :=
      Step.wgDone c2s1 [] [TaskSt.toSend msgB, TaskSt.toSend msgC] rfl
    have h3 : Step c2s2 c2s3 := Step.mainErr c2s2 msgA rfl rfl
    have h4 : Step c2s3 c2s4 :=
      Step.send c2s3 [TaskSt.finished] [TaskSt.toSend msgC] msgB rfl rfl
    have h5 : Step c2s4 sLeak :=
      Step.wgDone c2s4 [TaskSt.finished] [TaskSt.toSend msgC] rfl
    exact Relation.ReflTransGen.head h1 (Relation.ReflTransGen.head h2
      (Relation.ReflTransGen.head h3 (Relation.ReflTransGen.head h4
        (Relation.ReflTransGen.head h5 Relation.ReflTransGen.refl))))
  · intro t ht
    rcases step_enabling ht with ⟨p, v, q, hd⟩ | ⟨hbuf, p, e, q, hd⟩ |
      ⟨p, q, hd⟩ | ⟨hwg, _⟩ | ⟨hret, _⟩ | ⟨hret, _⟩
    · have := mem_of_eq_append_cons hd
      simp [sLeak] at this
    · simp [sLeak] at hbuf
    · have := mem_of_eq_append_cons hd
      simp [sLeak] at this
    · simp [sLeak] at hwg
    · simp [sLeak] at hret
    · simp [sLeak] at hret

/-- Claim C3 (amended): when the completion signal and the error slot
are both ready, the select chooses nondeterministically; for a fixed
single-deployment input whose task fails, both a complete execution
returning no error and a complete execution returning the error are
reachable — the outcome is not deterministic. -/
theorem C3_both_outcomes_reachable (f : Fetcher) (d : Deployment)
    (e : String) (h : (f.fetchDeploymentInfo d).2.1 = some e) :
    (∃ s, Reach (initState f [d]) s ∧ Terminal s ∧ s.ret = some ([], none)) ∧
    (∃ s, Reach (initState f [d]) s ∧ Terminal s ∧
      s.ret = some ([], some e)) := by
  have htask : (initState f [d]).tasks = [] ++ TaskSt.toSend e :: [] := by
    simp [initState, taskOf_err h]
  have h1 : Step (initState f [d]) (c3n1 e) :=
    Step.send (initState f [d]) [] [] e htask rfl
  constructor
  · refine ⟨c3n4 e, ?_, ?_, rfl⟩
    · have h2 : Step (c3n1 e) (c3n2 e) := Step.wgDone (c3n1 e) [] [] rfl
      have h3 : Step (c3n2 e) (c3n3 e) := Step.close (c3n2 e) rfl rfl
      have h4 : Step (c3n3 e) (c3n4 e) := Step.mainDone (c3n3 e) rfl rfl
      exact Relation.ReflTransGen.head h1 (Relation.ReflTransGen.head h2
        (Relation.ReflTransGen.head h3
          (Relation.ReflTransGen.head h4 Relation.ReflTransGen.refl)))
    · intro t ht
      rcases step_enabling ht with ⟨p, v, q, hd⟩ | ⟨hbuf, p, e', q, hd⟩ |
        ⟨p, q, hd⟩ | ⟨_, hdone⟩ | ⟨hret, _⟩ | ⟨hret, _⟩
      · have := mem_of_eq_append_cons hd
        simp [c3n4] at this
      · simp [c3n4] at hbuf
      · have := mem_of_eq_append_cons hd
        simp [c3n4] at this
      · simp [c3n4] at hdone
      · simp [c3n4] at hret
      · simp [c3n4] at hret
  · refine ⟨c3e4 e, ?_, ?_, rfl⟩
    · have h2 : Step (c3n1 e) (c3e2 e) := Step.mainErr (c3n1 e) e rfl rfl
      have h3 : Step (c3e2 e) (c3e3 e) := Step.wgDone (c3e2 e) [] [] rfl
      have h4 : Step (c3e3 e) (c3e4 e) := Step.close (c3e3 e) rfl rfl
      exact Relation.ReflTransGen.head h1 (Relation.ReflTransGen.head h2
        (Relation.ReflTransGen.head h3
          (Relation.ReflTransGen.head h4 Relation.ReflTransGen.refl)))
    · intro t ht
      rcases step_enabling ht with ⟨p, v, q, hd⟩ | ⟨hbuf, p, e', q, hd⟩ |
        ⟨p, q, hd⟩ | ⟨_, hdone⟩ | ⟨hret, _⟩ | ⟨hret, _⟩
      · have := mem_of_eq_append_cons hd
        simp [c3e4] at this
      · have := mem_of_eq_append_cons hd
        simp [c3e4] at this
      · have := mem_of_eq_append_cons hd
        simp [c3e4] at this
      · simp [c3e4] at hdone
      · simp [c3e4] at hret
      · simp [c3e4] at hret

/-- Witness for C3 (amended) at the concrete errand-failing deployment. -/
theorem C3_witness :
    (∃ s, Reach (initState f0 [depErrandsFail]) s ∧ Terminal s ∧
      s.ret = some ([], none)) ∧
    (∃ s, Reach (initState f0 [depErrandsFail]) s ∧ Terminal s ∧
      s.ret = some ([], some msgE)) :=
  C3_both_outcomes_reachable f0 depErrandsFail msgE (by decide)

/-- Counterexample to claim C3 as stated: for the fixed input with one
failing task, a complete execution returns no error — the returned error
is not deterministically non-nil, because the select may choose the
completion branch when both channels are ready. -/
theorem C3_nil_error_counterexample :
    (f0.fetchDeploymentInfo depErrandsFail).2.1 = some msgE ∧
    Reach (initState f0 [depErrandsFail]) c3Nil ∧ Terminal c3Nil ∧
    c3Nil.ret = some ([], none) := by
  refine ⟨by decide, ?_, ?_, rfl⟩
  · have h1 : Step (initState f0 [depErrandsFail]) c3s1 :=
      Step.send (initState f0 [depErrandsFail]) [] [] msgE rfl rfl
    have h2 : Step c3s1 c3s2 := Step.wgDone c3s1 [] [] rfl
    have h3 : Step c3s2 c3s3 := Step.close c3s2 rfl rfl
    have h4 : Step c3s3 c3Nil := Step.mainDone c3s3 rfl rfl
    exact Relation.ReflTransGen.head h1 (Relation.ReflTransGen.head h2
      (Relation.ReflTransGen.head h3
        (Relation.ReflTransGen.head h4 Relation.ReflTransGen.refl)))
  · intro t ht
    rcases step_enabling ht with ⟨p, v, q, hd⟩ | ⟨hbuf, p, e', q, hd⟩ |
      ⟨p, q, hd⟩ | ⟨_, hdone⟩ | ⟨hret, _⟩ | ⟨hret, _⟩
    · have := mem_of_eq_append_cons hd
      simp [c3Nil] at this
    · simp [c3Nil] at hbuf
    · have := mem_of_eq_append_cons hd
      simp [c3Nil] at this
    · simp [c3Nil] at hdone
    · simp [c3Nil] at hret
    · simp [c3Nil] at hret

/-- Claim C4: within a per-deployment task the four facet calls are
issued sequentially in the fixed order errands, instances, releases,
stemcells; the task aborts at the first facet error; and a snapshot
reaches the shared collection (or a returned collection) only when all
four facets succeeded, fully populated. -/
theorem C4_sequential_abort_fully_populated (f : Fetcher) (d : Deployment) :
    (∃ rest, (f.fetchDeploymentInfo d).2.2 ++ rest =
      [Facet.errands, Facet.instances, Facet.releases, Facet.stemcells]) ∧
    (∀ es e, f.fetchDeploymentErrands d = (es, some e) →
      f.fetchDeploymentInfo d =
        ({ Name := d.Name }, some e, [Facet.errands])) ∧
    (∀ es insts e, f.fetchDeploymentErrands d = (es, none) →
      f.fetchDeploymentInstances d = (insts, some e) →
      f.fetchDeploymentInfo d =
        ({ Name := d.Name, Errands := es }, some e,
         [Facet.errands, Facet.instances])) ∧
    (∀ es insts rels e, f.fetchDeploymentErrands d = (es, none) →
      f.fetchDeploymentInstances d = (insts, none) →
      f.fetchDeploymentReleases d = (rels, some e) →
      f.fetchDeploymentInfo d =
        ({ Name := d.Name, Errands := es, Instances := insts }, some e,
         [Facet.errands, Facet.instances, Facet.releases])) ∧
    (∀ es insts rels stems e, f.fetchDeploymentErrands d = (es, none) →
      f.fetchDeploymentInstances d = (insts, none) →
      f.fetchDeploymentReleases d = (rels, none) →
      f.fetchDeploymentStemcells d = (stems, some e) →
      f.fetchDeploymentInfo d =
        ({ Name := d.Name, Errands := es, Instances := insts,
           Releases := rels }, some e,
         [Facet.errands, Facet.instances, Facet.releases, Facet.stemcells])) ∧
    (∀ es insts rels stems, f.fetchDeploymentErrands d = (es, none) →
      f.fetchDeploymentInstances d = (insts, none) →
      f.fetchDeploymentReleases d = (rels, none) →
      f.fetchDeploymentStemcells d = (stems, none) →
      f.fetchDeploymentInfo d =
        ({ Name := d.Name, Errands := es, Instances := insts,
           Releases := rels, Stemcells := stems }, none,
         [Facet.errands, Facet.instances, Facet.releases, Facet.stemcells])) ∧
    (∀ (deployments : List Deployment) (s : EngSt),
      Reach (initState f deployments) s →
      (∀ v ∈ s.deploymentsInfo, ∃ d' ∈ deployments,
        f.fetchDeploymentInfo d' = (v, none,
          [Facet.errands, Facet.instances, Facet.releases,
           Facet.stemcells])) ∧
      (∀ r e, s.ret = some (r, e) → ∀ v ∈ r, ∃ d' ∈ deployments,
        f.fetchDeploymentInfo d' = (v, none,
          [Facet.errands, Facet.instances, Facet.releases,
           Facet.stemcells]))) := by
  refine ⟨fetchDeploymentInfo_trace_ordered f d, ?_, ?_, ?_, ?_, ?_, ?_⟩
  · intro es e h1
    exact fetchDeploymentInfo_errandsFail f d es e h1
  · intro es insts e h1 h2
    exact fetchDeploymentInfo_instancesFail f d es insts e h1 h2
  · intro es insts rels e h1 h2 h3
    exact fetchDeploymentInfo_releasesFail f d es insts rels e h1 h2 h3
  · intro es insts rels stems e h1 h2 h3 h4
    exact fetchDeploymentInfo_stemcellsFail f d es insts rels stems e h1 h2 h3 h4
  · intro es insts rels stems h1 h2 h3 h4
    exact fetchDeploymentInfo_ok f d es insts rels stems h1 h2 h3 h4
  · intro deployments s hreach
    have hI : fullSnapshotInv f deployments s :=
      reach_invariant hreach (fullSnapshotInv_init f deployments)
        (fullSnapshotInv_step f deployments)
    exact ⟨hI.2.1, hI.2.2⟩

/-- Witness for C4: the instance-failing deployment aborts after the
errands and instances calls with a name-only-plus-errands snapshot. -/
theorem C4_witness :
    f0.fetchDeploymentInfo depInstancesFail =
      ({ Name := "d2" }, some msgInst, [Facet.errands, Facet.instances]) :=
  (C4_sequential_abort_fully_populated f0 depInstancesFail).2.2.1 [] []
    msgInst (by decide) (by decide)

/-- Claim C6 (amended): when exactly one deployment's instance fetch
fails and every other facet call succeeds, the failing facet function
returns the empty collection and an error embedding the deployment name
and the cause; that error contains the word Instances, the deployment
name and the cause; and any error the engine returns is exactly that
error.  (The original claim's assertion that the engine always returns a
non-nil error fails: the select may choose the completion branch — see
the counterexample.) -/
theorem C6_single_instance_failure (f : Fetcher)
    (deployments : List Deployment) (d0 : Deployment) (cause : String)
    (_hmem : d0 ∈ deployments)
    (hE : d0.Errands.2 = none)
    (hX : d0.InstanceInfos.2 = some cause)
    (_hR : d0.Releases.2 = none)
    (_hS : d0.Stemcells.2 = none)
    (hothers : ∀ d ∈ deployments, d ≠ d0 →
      (f.fetchDeploymentInfo d).2.1 = none) :
    f.fetchDeploymentInstances d0 =
      ([], some ("Error while reading Instances for deployment `" ++
        d0.Name ++ "`: " ++ cause)) ∧
    (∃ u v, u ++ "Instances" ++ v =
      "Error while reading Instances for deployment `" ++ d0.Name ++
        "`: " ++ cause) ∧
    (∃ u v, u ++ d0.Name ++ v =
      "Error while reading Instances for deployment `" ++ d0.Name ++
        "`: " ++ cause) ∧
    (∃ u v, u ++ cause ++ v =
      "Error while reading Instances for deployment `" ++ d0.Name ++
        "`: " ++ cause) ∧
    (∀ s, Reach (initState f deployments) s →
      ∀ r e, s.ret = some (r, some e) →
        e = "Error while reading Instances for deployment `" ++ d0.Name ++
          "`: " ++ cause) := by
  refine ⟨?_, ?_, ?_, ?_, ?_⟩
  · rcases hXx : d0.InstanceInfos with ⟨ires, oi⟩
    rw [hXx] at hX
    simp at hX
    subst hX
    exact fetchDeploymentInstances_err f d0 ires cause hXx
  · refine ⟨"Error while reading ",
      " for deployment `" ++ d0.Name ++ "`: " ++ cause, ?_⟩
    have hlit : ("Error while reading Instances for deployment `" : String) =
        "Error while reading " ++ "Instances" ++ " for deployment `" := by
      decide
    rw [hlit]
    simp only [string_append_assoc]
  · refine ⟨"Error while reading Instances for deployment `",
      "`: " ++ cause, ?_⟩
    simp [string_append_assoc]
  · refine ⟨"Error while reading Instances for deployment `" ++ d0.Name ++
      "`: ", "", ?_⟩
    have hemp : ∀ a : String, a ++ "" = a := by
      intro a
      apply String.ext
      simp [String.data_append]
    rw [hemp]
  · intro s hreach r e hret
    have hI := reach_invariant hreach
      (onlyErrInv_init_instances f deployments d0 cause hE hX hothers)
      (onlyErrInv_step _)
    exact hI.2.2 r e hret

/-- Witness for C6 (amended) at a two-deployment input whose second
deployment has the failing instance fetch. -/
theorem C6_witness :
    f0.fetchDeploymentInstances depInstancesFail =
      ([], some ("Error while reading Instances for deployment `" ++
        depInstancesFail.Name ++ "`: " ++ "io timeout")) ∧
    (∃ u v, u ++ "Instances" ++ v =
      "Error while reading Instances for deployment `" ++
        depInstancesFail.Name ++ "`: " ++ "io timeout") ∧
    (∃ u v, u ++ depInstancesFail.Name ++ v =
      "Error while reading Instances for deployment `" ++
        depInstancesFail.Name ++ "`: " ++ "io timeout") ∧
    (∃ u v, u ++ "io timeout" ++ v =
      "Error while reading Instances for deployment `" ++
        depInstancesFail.Name ++ "`: " ++ "io timeout") ∧
    (∀ s, Reach (initState f0 [depOk, depInstancesFail]) s →
      ∀ r e, s.ret = some (r, some e) →
        e = "Error while reading Instances for deployment `" ++
          depInstancesFail.Name ++ "`: " ++ "io timeout") :=
  C6_single_instance_failure f0 [depOk, depInstancesFail] depInstancesFail
    "io timeout" (by decide) rfl rfl rfl rfl (by decide)

/-- Counterexample to claim C6 as stated: for an input whose only
deployment has a failing instance fetch (all its other facet calls
succeed), a complete execution of the engine returns no error at all. -/
theorem C6_nil_error_counterexample :
    depInstancesFail.InstanceInfos.2 = some "io timeout" ∧
    (f0.fetchDeploymentInfo depInstancesFail).2.1 = some msgInst ∧
    Reach (initState f0 [depInstancesFail]) c6Nil ∧ Terminal c6Nil ∧
    c6Nil.ret = some ([], none) := by
  refine ⟨rfl, by decide, ?_, ?_, rfl⟩
  · have h1 : Step (initState f0 [depInstancesFail]) c6s1 :=
      Step.send (initState f0 [depInstancesFail]) [] [] msgInst rfl rfl
    have h2 : Step c6s1 c6s2 := Step.wgDone c6s1 [] [] rfl
    have h3 : Step c6s2 c6s3 := Step.close c6s2 rfl rfl
    have h4 : Step c6s3 c6Nil := Step.mainDone c6s3 rfl rfl
    exact Relation.ReflTransGen.head h1 (Relation.ReflTransGen.head h2
      (Relation.ReflTransGen.head h3
        (Relation.ReflTransGen.head h4 Relation.ReflTransGen.refl)))
  · intro t ht
    rcases step_enabling ht with ⟨p, v, q, hd⟩ | ⟨hbuf, p, e', q, hd⟩ |
      ⟨p, q, hd⟩ | ⟨_, hdone⟩ | ⟨hret, _⟩ | ⟨hret, _⟩
    · have := mem_of_eq_append_cons hd
      simp [c6Nil] at this
    · simp [c6Nil] at hbuf
    · have := mem_of_eq_append_cons hd
      simp [c6Nil] at this
    · simp [c6Nil] at hdone
    · simp [c6Nil] at hret
    · simp [c6Nil] at hret
